import Mathlib

/-!
Verification development for a WSL project-browser extension.

The embedded code consists of:
* `src/utils/editors.ts` (the `execFile`-based implementation): the static
  editor catalog `COMMON_EDITORS` and the probe-driven filter
  `getConfiguredEditors`;
* `src/open-project.tsx`: project scanning over running distros
  (`fetchProjects`) and editor launching (`openProject`).

Subprocess calls are modelled by passing their outcomes as explicit
parameters: a probe or scan that may throw becomes an `Option String`
(`none` = the call threw, `some s` = it succeeded with stdout `s`).

The JavaScript string primitives used by the code
(`String.prototype.includes`, `toLowerCase`, `trim`, `split`) are embedded
as structural recursion over `List Char` so that every definition
evaluates by kernel reduction.
-/

/-- Does `sub` occur as a prefix of `s`?  Helper for `hasChunk`. -/
def chunkAt : List Char → List Char → Bool
  | [], _ => true
  | _ :: _, [] => false
  | c :: cs, d :: ds => c == d && chunkAt cs ds

/-- Does `sub` occur as a contiguous run inside `s`? -/
def hasChunk (s sub : List Char) : Bool :=
  match s with
  | [] => sub.isEmpty
  | _ :: rest => chunkAt sub s || hasChunk rest sub

/-- JavaScript `s.includes(sub)`: substring containment. -/
def jsIncludes (s sub : String) : Bool := hasChunk s.data sub.data

/-- JavaScript `s.toLowerCase()` (ASCII case folding, which is all the
probed tokens need). -/
def toLowerStr (s : String) : String := ⟨s.data.map Char.toLower⟩

/-- JavaScript `s.trim()`: strip leading and trailing whitespace. -/
def trimStr (s : String) : String :=
  ⟨((s.data.dropWhile Char.isWhitespace).reverse.dropWhile Char.isWhitespace).reverse⟩

/-- Split a character list on a separator character; like JavaScript
`split`, the result is never empty and keeps empty segments. -/
def splitOnChar (sep : Char) : List Char → List (List Char)
  | [] => [[]]
  | c :: rest =>
    let r := splitOnChar sep rest
    if c == sep then [] :: r
    else
      match r with
      | [] => [[c]]
      | h :: t => (c :: h) :: t

/-- JavaScript `s.split(sep)` for a one-character separator. -/
def jsSplit (s : String) (sep : Char) : List String :=
  (splitOnChar sep s.data).map (fun l => ⟨l⟩)

/-- Result of `Editor.getCommand`: a program and its argument vector
(`{ command, args }` in the source). -/
structure Cmd where
  command : String
  args : List String
deriving DecidableEq, Repr

/-- The `Editor` interface of `src/utils/editors.ts`, including the two
optional custom properties the catalog adds (`needsWindowsPath`,
`useTerminal`), defaulting to `false` when absent. -/
structure Editor where
  name : String
  id : String
  isTerminal : Bool
  getCommand : String → String → Cmd
  icon : Option String := none
  needsWindowsPath : Bool := false
  useTerminal : Bool := false

/-- Catalog entry "VS Code": `code --remote wsl+<distro> <path>`. -/
def vscodeEditor : Editor where
  name := "VS Code"
  id := "vscode"
  isTerminal := false
  getCommand := fun distro path =>
    { command := "code", args := ["--remote", "wsl+" ++ distro, path] }
  icon := some "vscode-icon.png"

/-- Catalog entry "Antigravity": `antigravity <path>`. -/
def antigravityEditor : Editor where
  name := "Antigravity"
  id := "antigravity"
  isTerminal := false
  getCommand := fun _ path => { command := "antigravity", args := [path] }

/-- Catalog entry "Cursor": `cursor --remote wsl+<distro> <path>`. -/
def cursorEditor : Editor where
  name := "Cursor"
  id := "cursor"
  isTerminal := false
  getCommand := fun distro path =>
    { command := "cursor", args := ["--remote", "wsl+" ++ distro, path] }

/-- Catalog entry "Notepad": `notepad.exe <path>`, expecting a Windows
path (`needsWindowsPath`). -/
def notepadEditor : Editor where
  name := "Notepad"
  id := "notepad"
  isTerminal := false
  getCommand := fun _ path => { command := "notepad.exe", args := [path] }
  needsWindowsPath := true

/-- Catalog entry "Notepad++": fixed install path, Windows path needed. -/
def notepadPlusPlusEditor : Editor where
  name := "Notepad++"
  id := "notepadplusplus"
  isTerminal := false
  getCommand := fun _ path =>
    { command := "C:\\Program Files\\Notepad++\\notepad++.exe", args := [path] }
  needsWindowsPath := true

/-- Catalog entry "Vim": `wsl -d <distro> vim <path>`, terminal editor. -/
def vimEditor : Editor where
  name := "Vim"
  id := "vim"
  isTerminal := true
  getCommand := fun distro path =>
    { command := "wsl", args := ["-d", distro, "vim", path] }
  useTerminal := true

/-- Catalog entry "Nano": `wsl -d <distro> nano <path>`, terminal editor. -/
def nanoEditor : Editor where
  name := "Nano"
  id := "nano"
  isTerminal := true
  getCommand := fun distro path =>
    { command := "wsl", args := ["-d", distro, "nano", path] }
  useTerminal := true

/-- Catalog entry "Micro": `wsl -d <distro> micro <path>`, terminal
editor. -/
def microEditor : Editor where
  name := "Micro"
  id := "micro"
  isTerminal := true
  getCommand := fun distro path =>
    { command := "wsl", args := ["-d", distro, "micro", path] }
  useTerminal := true

/-- The static catalog `COMMON_EDITORS`, in source order. -/
def COMMON_EDITORS : List Editor :=
  [vscodeEditor, antigravityEditor, cursorEditor, notepadEditor,
   notepadPlusPlusEditor, vimEditor, nanoEditor, microEditor]

/-- `COMMON_EDITORS.find((e) => e.id === i)!`; the catalog lookup used by
`getConfiguredEditors`.  The non-null assertion in the source is modelled
by defaulting to the first catalog entry (every id actually looked up is
present, as the `findEditor_*` lemmas show). -/
def findEditor (i : String) : Editor :=
  (COMMON_EDITORS.find? (fun e => e.id == i)).getD vscodeEditor

/-- Windows-side probe branch of `getConfiguredEditors`: given the
outcome of `where.exe code cursor antigravity notepad` (`none` = the call
threw), the editors pushed by the first `try` block, in push order. -/
def winDetected : Option String → List Editor
  | none => []
  | some stdout =>
    let found := toLowerStr stdout
    (if jsIncludes found "code" then [findEditor "vscode"] else []) ++
    (if jsIncludes found "cursor" then [findEditor "cursor"] else []) ++
    (if jsIncludes found "antigravity" then [findEditor "antigravity"] else []) ++
    (if jsIncludes found "notepad" then [findEditor "notepad"] else [])

/-- WSL-side probe branch of `getConfiguredEditors`: given the outcome of
`wsl -d <distro> bash -c "type vim nano micro"`, the editors pushed by
the second `try` block, in push order. -/
def wslDetected : Option String → List Editor
  | none => []
  | some stdout =>
    let foundWsl := toLowerStr stdout
    (if jsIncludes foundWsl "vim is" then [findEditor "vim"] else []) ++
    (if jsIncludes foundWsl "nano is" then [findEditor "nano"] else []) ++
    (if jsIncludes foundWsl "micro is" then [findEditor "micro"] else [])

/-- `getConfiguredEditors(distro)` with the two probe outcomes made
explicit.  The distro name only selects which WSL instance the second
probe runs in; the returned list depends on the probe outputs. -/
def getConfiguredEditors (distro : String) (winProbe wslProbe : Option String) :
    List Editor :=
  let _ := distro
  let detectedEditors := winDetected winProbe ++ wslDetected wslProbe
  if detectedEditors.length = 0 then
    [COMMON_EDITORS.get ⟨0, by decide⟩, COMMON_EDITORS.get ⟨3, by decide⟩]
  else
    detectedEditors
/-- A project record of `src/open-project.tsx`. -/
structure Project where
  name : String
  path : String
  distro : String
deriving DecidableEq, Repr

/-- A distro record as produced by `parseDistros` and consumed by
`fetchProjects`; only the two fields the embedded code reads. -/
structure Distro where
  name : String
  state : String
deriving DecidableEq, Repr

/-- Terminal wrapping in `openProject`:
`execFileAsync("cmd.exe", ["/c", "start", command, ...args])`. -/
def terminalWrap (c : Cmd) : Cmd :=
  { command := "cmd.exe", args := "/c" :: "start" :: c.command :: c.args }

/-- The path-translation subprocess `openProject` runs for editors that
need a Windows path:
`execFileAsync("wsl", ["-d", project.distro, "wslpath", "-w", project.path])`. -/
def wslpathCmd (distro path : String) : Cmd :=
  { command := "wsl", args := ["-d", distro, "wslpath", "-w", path] }

/-- The subprocess behaviour of one `openProject` call: the optional
path-translation invocation run first, and the final launch command. -/
structure Launch where
  translationCmd : Option Cmd
  final : Cmd
deriving Repr

/-- Pure core of `openProject` (src/open-project.tsx, lines 128-149) for a
resolved editor.  `wslpathStdout` is the stdout of the `wslpath -w`
subprocess; it is only consulted when `editor.needsWindowsPath` is set, in
which case its trimmed value replaces `project.path` as the path handed to
`getCommand`. -/
def openProjectLaunch (editor : Editor) (project : Project)
    (wslpathStdout : String) : Launch :=
  let targetPath :=
    if editor.needsWindowsPath then trimStr wslpathStdout else project.path
  let c := editor.getCommand project.distro targetPath
  { translationCmd :=
      if editor.needsWindowsPath then
        some (wslpathCmd project.distro project.path)
      else none
    final := if editor.useTerminal then terminalWrap c else c }

/-- Per-distro body of `fetchProjects` (src/open-project.tsx, lines
84-97): parse the stdout of
`wsl -d <distro> find <root> -maxdepth 1 -type d -not -path */.*`
into Project records.  Lines that are blank after trimming are dropped,
the root line itself is skipped, and each remaining line becomes a
Project named after its last `/`-separated component. -/
def scanDistroProjects (projectRoot distroName stdout : String) : List Project :=
  let lines := (jsSplit stdout '\n').filter (fun line => trimStr line ≠ "")
  lines.filterMap (fun path =>
    if path ≠ projectRoot ∧ trimStr path ≠ "" then
      let parts := jsSplit path '/'
      let last := parts.getLastD ""
      let name := if last = "" then path else last
      some { name := name, path := trimStr path, distro := distroName }
    else none)

/-- `fetchProjects` with the subprocess outcomes made explicit: `distros`
is the parsed output of `wsl --list --verbose`, and `scan d` is the
outcome of the `find` subprocess in distro `d` (`none` = it threw, in
which case that distro is logged and skipped).  Only running distros are
scanned.  The source gathers per-distro results concurrently via
`Promise.all` into one unordered list; the model fixes the distro order,
which the membership-level claims do not depend on. -/
def fetchProjects (projectRoot : String) (distros : List Distro)
    (scan : String → Option String) : List Project :=
  let running := distros.filter (fun d => d.state == "Running")
  running.flatMap (fun d =>
    match scan d.name with
    | some stdout => scanDistroProjects projectRoot d.name stdout
    | none => [])

/-- The `where.exe` token whose presence in the probe output makes
`getConfiguredEditors` push the editor with this id. -/
def winTokenOf : String → Option String
  | "vscode" => some "code"
  | "cursor" => some "cursor"
  | "antigravity" => some "antigravity"
  | "notepad" => some "notepad"
  | _ => none

/-- The WSL `type` token whose presence in the probe output makes
`getConfiguredEditors` push the editor with this id. -/
def wslTokenOf : String → Option String
  | "vim" => some "vim is"
  | "nano" => some "nano is"
  | "micro" => some "micro is"
  | _ => none

/-- Did a probe (outcome `probe`) find a given token? -/
def probeFinds (tok probe : Option String) : Bool :=
  match tok, probe with
  | some t, some s => jsIncludes (toLowerStr s) t
  | _, _ => false

/-- An editor's binary counts as found when either probe's output
contains its token. -/
def isDetected (e : Editor) (winProbe wslProbe : Option String) : Bool :=
  probeFinds (winTokenOf e.id) winProbe || probeFinds (wslTokenOf e.id) wslProbe

/-- The catalog in the order `getConfiguredEditors` actually pushes
detected entries: cursor before antigravity, unlike `COMMON_EDITORS`. -/
def DETECTION_ORDER : List Editor :=
  [vscodeEditor, cursorEditor, antigravityEditor, notepadEditor,
   vimEditor, nanoEditor, microEditor]

/-- Stated from the spec's wording, for comparison with the code: "the
subset of the static catalog whose binary was found, preserving catalog
order". -/
def catalogOrderDetected (winProbe wslProbe : Option String) : List Editor :=
  COMMON_EDITORS.filter (fun e => isDetected e winProbe wslProbe)

theorem findEditor_vscode : findEditor "vscode" = vscodeEditor := rfl
theorem findEditor_cursor : findEditor "cursor" = cursorEditor := rfl
theorem findEditor_antigravity : findEditor "antigravity" = antigravityEditor := rfl
theorem findEditor_notepad : findEditor "notepad" = notepadEditor := rfl
theorem findEditor_vim : findEditor "vim" = vimEditor := rfl
theorem findEditor_nano : findEditor "nano" = nanoEditor := rfl
theorem findEditor_micro : findEditor "micro" = microEditor := rfl

theorem probeFinds_none (probe : Option String) : probeFinds none probe = false := by
  cases probe <;> rfl

theorem winDetected_eq_filter (winProbe wslProbe : Option String) :
    winDetected winProbe
      = [vscodeEditor, cursorEditor, antigravityEditor, notepadEditor].filter
          (fun e => isDetected e winProbe wslProbe) := by
  cases winProbe with
  | none =>
    simp [winDetected, isDetected, winTokenOf, wslTokenOf, probeFinds_none,
      probeFinds, vscodeEditor, cursorEditor, antigravityEditor, notepadEditor]
  | some s =>
    simp only [winDetected, findEditor_vscode, findEditor_cursor,
      findEditor_antigravity, findEditor_notepad, List.filter_cons,
      List.filter_nil, isDetected, vscodeEditor, cursorEditor,
      antigravityEditor, notepadEditor, winTokenOf, wslTokenOf, probeFinds,
      probeFinds_none, Bool.or_false]
    cases h1 : jsIncludes (toLowerStr s) "code" <;>
      cases h2 : jsIncludes (toLowerStr s) "cursor" <;>
        cases h3 : jsIncludes (toLowerStr s) "antigravity" <;>
          cases h4 : jsIncludes (toLowerStr s) "notepad" <;>
            simp [h1, h2, h3, h4, vscodeEditor, cursorEditor,
              antigravityEditor, notepadEditor]

theorem wslDetected_eq_filter (winProbe wslProbe : Option String) :
    wslDetected wslProbe
      = [vimEditor, nanoEditor, microEditor].filter
          (fun e => isDetected e winProbe wslProbe) := by
  cases wslProbe with
  | none =>
    simp [wslDetected, isDetected, winTokenOf, wslTokenOf, probeFinds_none,
      probeFinds, vimEditor, nanoEditor, microEditor]
  | some s =>
    simp only [wslDetected, findEditor_vim, findEditor_nano, findEditor_micro,
      List.filter_cons, List.filter_nil, isDetected, vimEditor, nanoEditor,
      microEditor, winTokenOf, wslTokenOf, probeFinds, probeFinds_none,
      Bool.false_or]
    cases h1 : jsIncludes (toLowerStr s) "vim is" <;>
      cases h2 : jsIncludes (toLowerStr s) "nano is" <;>
        cases h3 : jsIncludes (toLowerStr s) "micro is" <;>
          simp [h1, h2, h3, vimEditor, nanoEditor, microEditor]

/-- Counterexample to claim C1 as stated: with `where.exe` output
"cursor antigravity" the code returns Cursor before Antigravity, while
the catalog-order subset puts Antigravity first; and with probes that
succeed matching nothing the code returns the fallback pair, not the
empty catalog subset. -/
theorem getConfiguredEditors_catalog_order_fails :
    (getConfiguredEditors "Ubuntu" (some "cursor antigravity") none).map Editor.id
        = ["cursor", "antigravity"] ∧
    (catalogOrderDetected (some "cursor antigravity") none).map Editor.id
        = ["antigravity", "cursor"] ∧
    getConfiguredEditors "Ubuntu" (some "cursor antigravity") none
        ≠ catalogOrderDetected (some "cursor antigravity") none ∧
    (getConfiguredEditors "Ubuntu" (some "") (some "")).map Editor.id
        = ["vscode", "notepad"] ∧
    catalogOrderDetected (some "") (some "") = [] ∧
    getConfiguredEditors "Ubuntu" (some "") (some "")
        ≠ catalogOrderDetected (some "") (some "") := by
  refine ⟨rfl, rfl, ?_, rfl, rfl, ?_⟩ <;>
    exact fun h => absurd (congrArg (List.map Editor.id) h) (by decide)

/-- Claim C1 amended: the returned list is the subset of the catalog
whose binary was found, but ordered by the code's detection sequence
(vscode, cursor, antigravity, notepad, vim, nano, micro — cursor and
antigravity swapped relative to the catalog), and when that subset is
empty the fixed fallback pair is returned instead. -/
theorem getConfiguredEditors_detection_order (distro : String)
    (winProbe wslProbe : Option String) :
    getConfiguredEditors distro winProbe wslProbe
      = (if (DETECTION_ORDER.filter
              (fun e => isDetected e winProbe wslProbe)).length = 0
         then [vscodeEditor, notepadEditor]
         else DETECTION_ORDER.filter (fun e => isDetected e winProbe wslProbe)) := by
  have hcomb : winDetected winProbe ++ wslDetected wslProbe
      = DETECTION_ORDER.filter (fun e => isDetected e winProbe wslProbe) := by
    rw [winDetected_eq_filter winProbe wslProbe,
      wslDetected_eq_filter winProbe wslProbe]
    rw [show DETECTION_ORDER
        = [vscodeEditor, cursorEditor, antigravityEditor, notepadEditor]
          ++ [vimEditor, nanoEditor, microEditor] from rfl,
      List.filter_append]
  simp only [getConfiguredEditors, hcomb]
  split <;> rfl


/-- Claim C2: if both the `where.exe` probe and the WSL `type` probe
throw, `getConfiguredEditors` returns exactly the VS Code entry followed
by the Notepad entry. -/
theorem getConfiguredEditors_both_probes_fail_fallback (distro : String) :
    getConfiguredEditors distro none none = [vscodeEditor, notepadEditor] := rfl

/-- Claim C3: for every `where.exe` output whose lowercase form contains
"code" and "cursor" but neither "antigravity" nor "notepad", the
Windows-side detection yields exactly the VS Code and Cursor entries. -/
theorem winDetected_code_cursor_exact (s : String)
    (hcode : jsIncludes (toLowerStr s) "code" = true)
    (hcursor : jsIncludes (toLowerStr s) "cursor" = true)
    (hanti : jsIncludes (toLowerStr s) "antigravity" = false)
    (hnote : jsIncludes (toLowerStr s) "notepad" = false) :
    winDetected (some s) = [vscodeEditor, cursorEditor] := by
  simp [winDetected, hcode, hcursor, hanti, hnote, findEditor_vscode,
    findEditor_cursor]

/-- Witness for C3 at the concrete probe output "code cursor". -/
theorem winDetected_code_cursor_exact_witness :
    jsIncludes (toLowerStr "code cursor") "code" = true ∧
    jsIncludes (toLowerStr "code cursor") "cursor" = true ∧
    jsIncludes (toLowerStr "code cursor") "antigravity" = false ∧
    jsIncludes (toLowerStr "code cursor") "notepad" = false ∧
    winDetected (some "code cursor") = [vscodeEditor, cursorEditor] :=
  ⟨rfl, rfl, rfl, rfl, winDetected_code_cursor_exact "code cursor" rfl rfl rfl rfl⟩

/-- Claim C9: for every WSL `type` output whose lowercase form contains
"vim is" but neither "nano is" nor "micro is", the WSL-side detection
yields exactly the Vim entry. -/
theorem wslDetected_vim_only_exact (s : String)
    (hvim : jsIncludes (toLowerStr s) "vim is" = true)
    (hnano : jsIncludes (toLowerStr s) "nano is" = false)
    (hmicro : jsIncludes (toLowerStr s) "micro is" = false) :
    wslDetected (some s) = [vimEditor] := by
  simp [wslDetected, hvim, hnano, hmicro, findEditor_vim]

/-- Witness for C9 at the concrete probe output "vim is /usr/bin/vim". -/
theorem wslDetected_vim_only_exact_witness :
    jsIncludes (toLowerStr "vim is /usr/bin/vim") "vim is" = true ∧
    jsIncludes (toLowerStr "vim is /usr/bin/vim") "nano is" = false ∧
    jsIncludes (toLowerStr "vim is /usr/bin/vim") "micro is" = false ∧
    wslDetected (some "vim is /usr/bin/vim") = [vimEditor] :=
  ⟨rfl, rfl, rfl, wslDetected_vim_only_exact "vim is /usr/bin/vim" rfl rfl rfl⟩

/-- Claim C4: for each terminal editor (Vim, Nano, Micro), `getCommand`
followed by the terminal wrapping used in `openProject` yields the
argument vector `cmd.exe /c start wsl -d <distro> <editor> <path>` in
which the distro and the path each occur as separate, unmodified
elements; and `openProject` itself (whose `useTerminal` branch applies
exactly that wrapping) launches that command. -/
theorem terminal_editor_args_preserved (d p nm out : String) :
    terminalWrap (vimEditor.getCommand d p)
        = ⟨"cmd.exe", ["/c", "start", "wsl", "-d", d, "vim", p]⟩ ∧
    terminalWrap (nanoEditor.getCommand d p)
        = ⟨"cmd.exe", ["/c", "start", "wsl", "-d", d, "nano", p]⟩ ∧
    terminalWrap (microEditor.getCommand d p)
        = ⟨"cmd.exe", ["/c", "start", "wsl", "-d", d, "micro", p]⟩ ∧
    (openProjectLaunch vimEditor ⟨nm, p, d⟩ out).final
        = terminalWrap (vimEditor.getCommand d p) ∧
    (openProjectLaunch nanoEditor ⟨nm, p, d⟩ out).final
        = terminalWrap (nanoEditor.getCommand d p) ∧
    (openProjectLaunch microEditor ⟨nm, p, d⟩ out).final
        = terminalWrap (microEditor.getCommand d p) ∧
    d ∈ (terminalWrap (vimEditor.getCommand d p)).args ∧
    p ∈ (terminalWrap (vimEditor.getCommand d p)).args ∧
    d ∈ (terminalWrap (nanoEditor.getCommand d p)).args ∧
    p ∈ (terminalWrap (nanoEditor.getCommand d p)).args ∧
    d ∈ (terminalWrap (microEditor.getCommand d p)).args ∧
    p ∈ (terminalWrap (microEditor.getCommand d p)).args := by
  refine ⟨rfl, rfl, rfl, rfl, rfl, rfl, ?_, ?_, ?_, ?_, ?_, ?_⟩ <;>
    simp [terminalWrap, vimEditor, nanoEditor, microEditor]

/-- Claim C6: a distro listing whose stdout consists of the root line
`~`, the lines `~/proj1` and `~/proj2`, and a trailing blank produces
exactly the two Projects `proj1` and `proj2`, each carrying the distro's
name and the full path; the root line and blank lines produce nothing. -/
theorem scanDistro_two_projects (d : String) :
    scanDistroProjects "~" d "~\n~/proj1\n~/proj2\n"
      = [⟨"proj1", "~/proj1", d⟩, ⟨"proj2", "~/proj2", d⟩] := rfl

/-- Claim C10: `getConfiguredEditors` never returns an empty list, and
the two-editor fallback is returned whenever zero editors were detected
— a condition on the detected count, not on the probes throwing. -/
theorem getConfiguredEditors_nonempty_fallback (distro : String)
    (winProbe wslProbe : Option String) :
    getConfiguredEditors distro winProbe wslProbe ≠ [] ∧
    ((winDetected winProbe ++ wslDetected wslProbe).length = 0 →
      getConfiguredEditors distro winProbe wslProbe
        = [vscodeEditor, notepadEditor]) := by
  constructor
  · simp only [getConfiguredEditors]
    split
    · simp
    · next h =>
      intro hnil
      exact h (by simp [hnil])
  · intro h
    simp only [getConfiguredEditors, h, if_pos]
    rfl

/-- Witness for C10 at probes that both succeed but match no editor
token: the fallback still fires. -/
theorem getConfiguredEditors_nonempty_fallback_witness :
    getConfiguredEditors "Ubuntu" (some "") (some "") ≠ [] ∧
    (winDetected (some "") ++ wslDetected (some "")).length = 0 ∧
    getConfiguredEditors "Ubuntu" (some "") (some "")
      = [vscodeEditor, notepadEditor] :=
  ⟨(getConfiguredEditors_nonempty_fallback "Ubuntu" (some "") (some "")).1, rfl,
   (getConfiguredEditors_nonempty_fallback "Ubuntu" (some "") (some "")).2 rfl⟩

/-- Claim C5: for every catalog editor whose `needsWindowsPath` flag is
set, `openProject` runs the `wslpath -w` translation on the project's
path before building the command, and the path handed to `getCommand`
(hence the launch argument) is the trimmed stdout of that translation,
not the original WSL path. -/
theorem needsWindowsPath_uses_translated_path (e : Editor)
    (hmem : e ∈ COMMON_EDITORS) (hflag : e.needsWindowsPath = true)
    (proj : Project) (out : String) :
    (openProjectLaunch e proj out).translationCmd
        = some (wslpathCmd proj.distro proj.path) ∧
    (openProjectLaunch e proj out).final.args = [trimStr out] := by
  simp only [COMMON_EDITORS, List.mem_cons, List.not_mem_nil, or_false] at hmem
  rcases hmem with rfl | rfl | rfl | rfl | rfl | rfl | rfl | rfl
  all_goals first
    | exact ⟨rfl, rfl⟩
    | exact absurd hflag (by decide)

/-- Witness for C5: Notepad (a `needsWindowsPath` editor) at a concrete
project and translation output. -/
theorem needsWindowsPath_uses_translated_path_witness :
    notepadEditor ∈ COMMON_EDITORS ∧ notepadEditor.needsWindowsPath = true ∧
    (openProjectLaunch notepadEditor ⟨"proj1", "/home/u/proj1", "Ubuntu"⟩
        "C:\\wsl\\proj1\n").translationCmd
      = some (wslpathCmd "Ubuntu" "/home/u/proj1") ∧
    (openProjectLaunch notepadEditor ⟨"proj1", "/home/u/proj1", "Ubuntu"⟩
        "C:\\wsl\\proj1\n").final.args
      = [trimStr "C:\\wsl\\proj1\n"] :=
  ⟨by simp [COMMON_EDITORS], rfl,
   (needsWindowsPath_uses_translated_path notepadEditor (by simp [COMMON_EDITORS])
      rfl ⟨"proj1", "/home/u/proj1", "Ubuntu"⟩ "C:\\wsl\\proj1\n").1,
   (needsWindowsPath_uses_translated_path notepadEditor (by simp [COMMON_EDITORS])
      rfl ⟨"proj1", "/home/u/proj1", "Ubuntu"⟩ "C:\\wsl\\proj1\n").2⟩

/-- Every project produced by scanning one distro carries that distro's
name. -/
theorem scanDistroProjects_distro_eq (root n out : String) (p : Project)
    (hp : p ∈ scanDistroProjects root n out) : p.distro = n := by
  simp only [scanDistroProjects, List.mem_filterMap] at hp
  obtain ⟨line, -, hline⟩ := hp
  split at hline
  · simp only [Option.some.injEq] at hline
    subst hline
    rfl
  · exact absurd hline (by simp)

/-- Claim C7: every Project produced by `fetchProjects` names a distro
that was parsed as Running at scan time. -/
theorem fetchProjects_distro_running_invariant (root : String)
    (distros : List Distro) (scan : String → Option String) (p : Project)
    (hp : p ∈ fetchProjects root distros scan) :
    ∃ d ∈ distros, d.state = "Running" ∧ p.distro = d.name := by
  simp only [fetchProjects, List.mem_flatMap, List.mem_filter] at hp
  obtain ⟨d, ⟨hd, hrun⟩, hpd⟩ := hp
  refine ⟨d, hd, by simpa using hrun, ?_⟩
  cases hscan : scan d.name with
  | none => rw [hscan] at hpd; exact absurd hpd (by simp)
  | some out =>
    rw [hscan] at hpd
    exact scanDistroProjects_distro_eq root d.name out p hpd

/-- Witness for C7: one running distro, one scanned project. -/
theorem fetchProjects_distro_running_invariant_witness :
    (⟨"a", "~/a", "Ubuntu"⟩ : Project) ∈
      fetchProjects "~" [⟨"Ubuntu", "Running"⟩, ⟨"Deb", "Stopped"⟩]
        (fun n => if n = "Ubuntu" then some "~\n~/a\n" else none) ∧
    ∃ d ∈ ([⟨"Ubuntu", "Running"⟩, ⟨"Deb", "Stopped"⟩] : List Distro),
      d.state = "Running" ∧ (⟨"a", "~/a", "Ubuntu"⟩ : Project).distro = d.name :=
  ⟨by decide,
   fetchProjects_distro_running_invariant "~"
     [⟨"Ubuntu", "Running"⟩, ⟨"Deb", "Stopped"⟩]
     (fun n => if n = "Ubuntu" then some "~\n~/a\n" else none)
     ⟨"a", "~/a", "Ubuntu"⟩ (by decide)⟩

/-- Claim C8: if the scan of one distro name throws, `fetchProjects`
still returns exactly the entries derived from the other distros'
scans — the same list as scanning with that distro removed. -/
theorem fetchProjects_one_failure_partial (root : String)
    (distros : List Distro) (scan : String → Option String) (n : String)
    (hfail : scan n = none) :
    fetchProjects root distros scan
      = fetchProjects root (distros.filter (fun d => d.name != n)) scan := by
  induction distros with
  | nil => rfl
  | cons d rest ih =>
    simp only [fetchProjects, List.filter_cons] at ih ⊢
    by_cases hn : d.name = n
    · subst hn
      by_cases hr : (d.state == "Running") = true
      · simp [hr, hfail, ih]
      · simp only [beq_iff_eq] at hr
        simp [hr, ih, bne_self_eq_false]
    · have hbne : (d.name != n) = true := by simp [bne, hn]
      by_cases hr : (d.state == "Running") = true
      · simp [hr, hbne, ih]
      · simp only [beq_iff_eq] at hr
        simp [hr, hbne, ih]

/-- Witness for C8: distro D's scan throws; the result equals the scan of
the remaining distro U alone. -/
theorem fetchProjects_one_failure_partial_witness :
    (fun s => if s = "U" then some "~\n~/a\n" else none) "D" = none ∧
    fetchProjects "~" [⟨"U", "Running"⟩, ⟨"D", "Running"⟩]
        (fun s => if s = "U" then some "~\n~/a\n" else none)
      = fetchProjects "~"
          (([⟨"U", "Running"⟩, ⟨"D", "Running"⟩] : List Distro).filter
            (fun d => d.name != "D"))
          (fun s => if s = "U" then some "~\n~/a\n" else none) :=
  ⟨rfl,
   fetchProjects_one_failure_partial "~" [⟨"U", "Running"⟩, ⟨"D", "Running"⟩]
     (fun s => if s = "U" then some "~\n~/a\n" else none) "D" rfl⟩
